import Mathlib

/-!
Verification of the generation orchestrator of the eBook Architect
repository (`src/App.tsx`, `src/services/geminiService.ts`, the type
declarations and the PDF pagination loop of the reader component).

The TypeScript code is shallowly embedded: the provider (Gemini client)
is abstracted as an environment recording, per call site, the outcome
the provider would deliver; the stateful React `setBookData` publishes
are recorded as explicit snapshot lists; JavaScript truthiness on the
optional string fields is modelled by `truthy`.
-/

namespace EbookArchitect

/-- `GenerationStatus` enum (types.ts). -/
inductive GenerationStatus
  | IDLE
  | GENERATING_OUTLINE
  | REVIEWING_OUTLINE
  | GENERATING_BOOK
  | COMPLETED
  | ERROR
  deriving DecidableEq, Repr

/-- Per-chapter `status` union (types.ts):
`'pending' | 'generating_text' | 'generating_image' | 'completed' | 'error'`. -/
inductive ChapterStatus
  | pending
  | generating_text
  | generating_image
  | completed
  | error
  deriving DecidableEq, Repr

/-- `BookFormat` (types.ts). -/
inductive BookFormat
  | ebook
  | linkedinCarousel
  deriving DecidableEq, Repr

/-- `Chapter` (types.ts).  `content` and `imageUrl` are optional fields;
`none` models an absent field. -/
structure Chapter where
  id : String
  title : String
  description : String
  content : Option String
  imageUrl : Option String
  status : ChapterStatus
  deriving DecidableEq, Repr

/-- `BookConfig` (types.ts). -/
structure BookConfig where
  topic : String
  title : String
  authorName : String
  audience : String
  tone : String
  enableSearch : Bool
  style : String
  chapterCount : Nat
  format : BookFormat
  deriving DecidableEq, Repr

/-- `BookData` (types.ts).  The `generatedAt : Date` field carries no
behaviour and is omitted. -/
structure BookData where
  config : BookConfig
  coverImage : Option String
  outline : List Chapter
  deriving DecidableEq, Repr

/-- JavaScript truthiness of an optional string field: an absent field
and the empty string are falsy, every other string is truthy. -/
def truthy : Option String → Bool
  | none => false
  | some s => s != ""

/-- JavaScript `a || b` on strings (`""` is falsy). -/
def jsOrS (a b : String) : String :=
  if a = "" then b else a

/-- JavaScript `a || b` where `a` is an optional string field. -/
def jsOrO (a : Option String) (b : String) : String :=
  match a with
  | none => b
  | some s => jsOrS s b

/-- The message thrown by `getClient` (geminiService.ts:7) when no API
key is configured. -/
def apiKeyMissingMsg : String :=
  "API Key missing. Please add your Gemini API Key in the settings."

/-- The fixed placeholder substituted when a chapter's text stream fails
before accumulating any text (App.tsx:202). -/
def errPlaceholder : String :=
  "*Error generating text. Please try regenerating.*"

/-- Provider environment for one Phase C run (`startFullGeneration`):
the outcome each provider call site would produce.  Text streams are
indexed by chapter position: `textChunks i` is the list of raw
`chunk.text` values the stream for chapter `i` delivers before it either
ends or (when `textFails i`) throws; `imageResult i` is the outcome of
`generateChapterIllustration` for chapter `i`. -/
structure GenEnv where
  coverResult : Except String String
  textChunks : Nat → List String
  textFails : Nat → Bool
  imageResult : Nat → Except String String

/-- `generateChapterContentStream` (geminiService.ts:122-127) yields
`chunk.text` only when it is truthy: empty chunks are filtered out, so
every fragment the orchestrator receives is a non-empty string. -/
def yieldsOf (env : GenEnv) (i : Nat) : List String :=
  (env.textChunks i).filter (fun s => s != "")

/-- Successive values of the `fullText` accumulator while consuming the
stream fragments (App.tsx:195-199): after each fragment the chapter's
content is republished with the accumulator so far. -/
def accumulate (acc : String) : List String → List String
  | [] => []
  | f :: fs => (acc ++ f) :: accumulate (acc ++ f) fs

/-- Final value of `fullText` after the text sub-step of chapter `i`:
the concatenation of the received fragments, with the placeholder
substituted via `fullText || placeholder` when the stream failed and
nothing was accumulated (App.tsx:200-203). -/
def streamedText (env : GenEnv) (i : Nat) : String :=
  let t := String.join (yieldsOf env i)
  if env.textFails i then jsOrS t errPlaceholder else t

/-- The resume skip rule (App.tsx:167):
`chapter.status === 'completed' && chapter.content && chapter.imageUrl`. -/
def skipCond (c : Chapter) : Bool :=
  (c.status == ChapterStatus.completed) && truthy c.content && truthy c.imageUrl

/-- Result of processing one chapter in the Phase C loop: its final
state, the number of `completedSteps` increments, the number of provider
call attempts, and the successive states of this chapter published via
`setBookData`, in order. -/
structure ChapterRun where
  final : Chapter
  steps : Nat
  calls : Nat
  pubs : List Chapter
  deriving Repr

/-- One iteration of the chapter loop of `startFullGeneration`
(App.tsx:163-219).  When the skip rule holds the loop `continue`s after
`completedSteps += 2` with no provider call and no publish.  Otherwise:
publish status `generating_text`; open the text stream (one provider
call attempt — a missing credential is raised here and caught by the
`catch (streamError)` handler); publish the growing content once per
fragment; publish status `generating_image` with the final text
(`completedSteps++`); attempt the illustration (one provider call
attempt); on success set `imageUrl`, on failure leave the chapter's
fields as they were; set status `completed`, publish, `completedSteps++`. -/
def processChapter (env : GenEnv) (i : Nat) (c : Chapter) : ChapterRun :=
  if skipCond c then
    { final := c, steps := 2, calls := 0, pubs := [] }
  else
    let c1 : Chapter := { c with status := ChapterStatus.generating_text }
    let streamPubs : List Chapter :=
      (accumulate "" (yieldsOf env i)).map (fun t => { c1 with content := some t })
    let c2 : Chapter :=
      { c1 with status := ChapterStatus.generating_image, content := some (streamedText env i) }
    let c3 : Chapter :=
      match env.imageResult i with
      | Except.ok url => { c2 with imageUrl := some url, status := ChapterStatus.completed }
      | Except.error _ => { c2 with status := ChapterStatus.completed }
    { final := c3, steps := 2, calls := 2, pubs := c1 :: streamPubs ++ [c2, c3] }

/-- Accumulated result of the chapter loop. -/
structure ChaptersRun where
  outline : List Chapter
  steps : Nat
  calls : Nat
  snaps : List (List Chapter)
  deriving Repr

/-- The chapter loop (App.tsx:163-220): chapters are processed strictly
sequentially; every `setBookData` publish replaces the outline with a
copy of `newOutline`, in which the already-processed prefix is final,
the current chapter carries its in-flight state, and the suffix is
untouched. -/
def runChapters (env : GenEnv) : Nat → List Chapter → List Chapter → ChaptersRun
  | _, done, [] => { outline := done, steps := 0, calls := 0, snaps := [] }
  | i, done, c :: rest =>
    let r := processChapter env i c
    let tail := runChapters env (i + 1) (done ++ [r.final]) rest
    { outline := tail.outline
      steps := r.steps + tail.steps
      calls := r.calls + tail.calls
      snaps := r.pubs.map (fun c' => done ++ c' :: rest) ++ tail.snaps }

/-- Observable outcome of one `startFullGeneration` run. -/
structure RunResult where
  coverImage : Option String
  outline : List Chapter
  completedSteps : Nat
  totalSteps : Nat
  calls : Nat
  snaps : List (List Chapter)
  status : GenerationStatus
  errorMsg : Option String
  deriving Repr

/-- `startFullGeneration` (App.tsx:131-230).  Cover step: when
`bookData.coverImage` is falsy, one provider call attempt whose failure
(including a missing credential) is caught by the inner handler at
App.tsx:154; `completedSteps++` regardless.  Then the chapter loop.
Every `await` of the body sits inside one of the three inner
`try`/`catch` regions (cover App.tsx:151-156, stream App.tsx:187-203,
image App.tsx:210-216) and the remaining statements (counter increments,
progress updates, array copies, `setBookData`) cannot throw, so the
outer `catch` at App.tsx:223 — which would set `GenerationStatus.ERROR`
and record the message — is unreachable: every run ends `COMPLETED` with
no error message. -/
def startFullGeneration (env : GenEnv) (book : BookData) : RunResult :=
  let cover : Option String × Nat :=
    if truthy book.coverImage then (book.coverImage, 0)
    else
      match env.coverResult with
      | Except.ok url => (some url, 1)
      | Except.error _ => (book.coverImage, 1)
  let r := runChapters env 0 [] book.outline
  { coverImage := cover.1
    outline := r.outline
    completedSteps := 1 + r.steps
    totalSteps := 1 + book.outline.length * 2
    calls := cover.2 + r.calls
    snaps := r.snaps
    status := GenerationStatus.COMPLETED
    errorMsg := none }

/-! ## Phase A — outline synthesis -/

/-- Abstraction of the provider response consumed by
`generateBookOutline` (geminiService.ts:63-77) after the call resolved:
`noText` — `response.text` empty after markdown-fence stripping;
`unparseable` — `JSON.parse` throws; `parsed title chapters` — parsed
object, where `chapters = none` models a missing or non-array
`chapters` field and `title = none` a missing/empty title.  The outer
`Except.error` of `outlineCall` models the provider call itself (or
`getClient`) throwing. -/
inductive OutlineResponse
  | noText
  | unparseable
  | parsed (title : Option String) (chapters : Option (List (String × String)))
  deriving DecidableEq, Repr

/-- `generateBookOutline` (geminiService.ts:16-78).  The
`"Invalid structure"` throw sits inside the same `try` as `JSON.parse`,
so both surface as `"Failed to parse outline."`.  An empty `chapters`
array **is** an array, so it is returned as a successful outline. -/
def generateBookOutline (call : Except String OutlineResponse) :
    Except String (Option String × List (String × String)) :=
  match call with
  | Except.error e => Except.error e
  | Except.ok OutlineResponse.noText => Except.error "No response from AI"
  | Except.ok OutlineResponse.unparseable => Except.error "Failed to parse outline."
  | Except.ok (OutlineResponse.parsed _ none) => Except.error "Failed to parse outline."
  | Except.ok (OutlineResponse.parsed t (some chs)) => Except.ok (t, chs)

/-- Chapter construction from the outline pairs (App.tsx:66-70):
positional ids `chap-i`, status `pending`, no content, no image. -/
def mkChapters (i : Nat) : List (String × String) → List Chapter
  | [] => []
  | p :: ps =>
    { id := "chap-" ++ toString i
      title := p.1
      description := p.2
      content := none
      imageUrl := none
      status := ChapterStatus.pending } :: mkChapters (i + 1) ps

/-- The app-level state touched by `startOutlineGeneration`. -/
structure AppState where
  status : GenerationStatus
  bookData : Option BookData
  error : Option String
  deriving Repr

/-- `startOutlineGeneration` (App.tsx:55-88).  An empty topic returns
immediately.  On success a fresh `BookData` replaces any prior one, the
title falling back through provider title → config title → topic (all
via JS `||`); the `!outlineData.chapters` guard at App.tsx:62 can never
throw because `generateBookOutline` only succeeds with an array.  On
failure the error message is recorded (`e.message || "Failed to
generate outline."`), the status returns to `IDLE` and the prior
`bookData` is left untouched. -/
def startOutlineGeneration (config : BookConfig)
    (call : Except String OutlineResponse) (st : AppState) : AppState :=
  if config.topic = "" then st
  else
    match generateBookOutline call with
    | Except.ok (t, chs) =>
      let finalTitle := jsOrO t (jsOrS config.title config.topic)
      { status := GenerationStatus.REVIEWING_OUTLINE
        bookData := some
          { config := { config with title := finalTitle }
            coverImage := none
            outline := mkChapters 0 chs }
        error := none }
    | Except.error e =>
      { status := GenerationStatus.IDLE
        bookData := st.bookData
        error := some (jsOrS e "Failed to generate outline.") }

/-! ## Phase B — review edits (App.tsx:90-128) -/

/-- The two editable outline fields of `handleUpdateChapter`. -/
inductive ChapterField
  | title
  | description
  deriving DecidableEq, Repr

/-- `handleUpdateChapter` (App.tsx:90-95): replace one field of the
chapter at `index`, leaving every other chapter alone. -/
def handleUpdateChapter : List Chapter → Nat → ChapterField → String → List Chapter
  | [], _, _, _ => []
  | c :: cs, 0, f, v =>
    (match f with
     | ChapterField.title => { c with title := v }
     | ChapterField.description => { c with description := v }) :: cs
  | c :: cs, n + 1, f, v => c :: handleUpdateChapter cs n f v

/-- `handleAddChapter` (App.tsx:97-106): append a fresh `pending`
chapter whose id mixes the current length with `Date.now()` (passed in
as `now`). -/
def handleAddChapter (outline : List Chapter) (now : Nat) : List Chapter :=
  outline ++
    [{ id := "chap-" ++ toString outline.length ++ "-" ++ toString now
       title := "New Chapter"
       description := "Description of the new chapter"
       content := none
       imageUrl := none
       status := ChapterStatus.pending }]

/-- `handleRemoveChapter` (App.tsx:108-112): `filter((_, i) => i !== index)`,
i.e. drop the element at `index`. -/
def handleRemoveChapter (outline : List Chapter) (index : Nat) : List Chapter :=
  outline.eraseIdx index

/-- `handleUpdateBookContent` (App.tsx:114-120). -/
def handleUpdateBookContent (outline : List Chapter) (chapterId : String)
    (newContent : String) : List Chapter :=
  outline.map (fun c => if c.id = chapterId then { c with content := some newContent } else c)

/-- `handleUpdateBookImage` (App.tsx:122-128). -/
def handleUpdateBookImage (outline : List Chapter) (chapterId : String)
    (newImageUrl : String) : List Chapter :=
  outline.map (fun c => if c.id = chapterId then { c with imageUrl := some newImageUrl } else c)

/-! ## Export pagination (BookReader `handleDownloadPdf`) -/

/-- jsPDF A4 portrait page width in mm (`pdf.internal.pageSize.getWidth()`). -/
def pdfWidth : ℚ := 210

/-- jsPDF A4 portrait page height in mm (`pdf.internal.pageSize.getHeight()`). -/
def pdfHeight : ℚ := 297

/-- The fixed margin of `handleDownloadPdf`. -/
def pdfMarginMM : ℚ := 10

/-- `contentWidth = pdfWidth - margin * 2`. -/
def contentWidth : ℚ := pdfWidth - pdfMarginMM * 2

/-- The per-page vertical advance `pdfHeight - margin * 2` used by the
multi-page split loop; this is the visible content height of a page. -/
def contentHeight : ℚ := pdfHeight - pdfMarginMM * 2

/-- `imgHeight = (imgProps.height * contentWidth) / imgProps.width`:
the bitmap scaled to the content width preserving aspect ratio. -/
def scaledHeight (bitmapWidth bitmapHeight : ℚ) : ℚ :=
  bitmapHeight * contentWidth / bitmapWidth

/-- The `while (heightLeft > 0)` split loop of `handleDownloadPdf`
(part_001:212-218): on each page the full image is drawn at
`y = margin + position`, then both `heightLeft` and `position` decrease
by `contentHeight`.  Returns the y-position of the image on each
emitted page, in order. -/
def splitPages (heightLeft position : ℚ) : List ℚ :=
  if heightLeft ≤ 0 then []
  else (pdfMarginMM + position) :: splitPages (heightLeft - contentHeight) (position - contentHeight)
  termination_by (⌈heightLeft / contentHeight⌉).toNat
  decreasing_by
    have hC : (0:ℚ) < contentHeight := by norm_num [contentHeight, pdfHeight, pdfMarginMM]
    have hpos : (0:ℚ) < heightLeft := lt_of_not_ge (by simpa using (by assumption : ¬ heightLeft ≤ 0))
    have h1 : (heightLeft - contentHeight) / contentHeight = heightLeft / contentHeight - 1 := by
      field_simp
    have h2 : ⌈(heightLeft - contentHeight) / contentHeight⌉ = ⌈heightLeft / contentHeight⌉ - 1 := by
      rw [h1]
      exact_mod_cast Int.ceil_sub_int (heightLeft / contentHeight) 1
    have h3 : 0 < ⌈heightLeft / contentHeight⌉ :=
      Int.ceil_pos.mpr (div_pos hpos hC)
    omega

/-- Page emission for one rendered section bitmap of scaled height
`imgHeight` (part_001:204-219): a single page at the top margin when
`imgHeight ≤ pdfHeight` (the **full page height**, not the content
height), otherwise the split loop starting at `position = 0`. -/
def sectionPages (imgHeight : ℚ) : List ℚ :=
  if imgHeight ≤ pdfHeight then [pdfMarginMM]
  else splitPages imgHeight 0

/-! ## Helper lemmas about the Phase C loop -/

/-- The skip rule unpacked into its three conjuncts. -/
lemma skipCond_iff (c : Chapter) :
    skipCond c = true ↔
      c.status = ChapterStatus.completed ∧ truthy c.content = true ∧ truthy c.imageUrl = true := by
  simp [skipCond, Bool.and_eq_true, beq_iff_eq, and_assoc]

/-- Every chapter contributes exactly two `completedSteps` increments,
skipped or not. -/
lemma processChapter_steps (env : GenEnv) (i : Nat) (c : Chapter) :
    (processChapter env i c).steps = 2 := by
  rw [processChapter]; split <;> rfl

/-- A skipped chapter is returned unchanged with no call and no publish. -/
lemma processChapter_skip (env : GenEnv) (i : Nat) (c : Chapter)
    (h : skipCond c = true) :
    processChapter env i c = { final := c, steps := 2, calls := 0, pubs := [] } := by
  rw [processChapter, if_pos h]

/-- Final chapter states of the loop from position `i` on. -/
def finalsFrom (env : GenEnv) : Nat → List Chapter → List Chapter
  | _, [] => []
  | i, c :: cs => (processChapter env i c).final :: finalsFrom env (i + 1) cs

lemma finalsFrom_length (env : GenEnv) (l : List Chapter) :
    ∀ i, (finalsFrom env i l).length = l.length := by
  induction l with
  | nil => intro i; rfl
  | cons c cs ih => intro i; simp [finalsFrom, ih]

lemma runChapters_outline (env : GenEnv) (rest : List Chapter) :
    ∀ (i : Nat) (done : List Chapter),
      (runChapters env i done rest).outline = done ++ finalsFrom env i rest := by
  induction rest with
  | nil => intro i done; simp [runChapters, finalsFrom]
  | cons c cs ih => intro i done; simp [runChapters, finalsFrom, ih]

lemma runChapters_steps (env : GenEnv) (rest : List Chapter) :
    ∀ (i : Nat) (done : List Chapter),
      (runChapters env i done rest).steps = 2 * rest.length := by
  induction rest with
  | nil => intro i done; simp [runChapters]
  | cons c cs ih =>
    intro i done
    simp [runChapters, ih, processChapter_steps]
    ring

/-- When every chapter satisfies the skip rule the loop is a no-op:
outline returned as-is, no provider call, no publish. -/
lemma runChapters_all_skip (env : GenEnv) :
    ∀ (rest : List Chapter), (∀ c ∈ rest, skipCond c = true) →
      ∀ (i : Nat) (done : List Chapter),
        runChapters env i done rest =
          { outline := done ++ rest, steps := 2 * rest.length, calls := 0, snaps := [] } := by
  intro rest
  induction rest with
  | nil => intro _ i done; simp [runChapters]
  | cons c cs ih =>
    intro h i done
    have hc : skipCond c = true := h c (by simp)
    simp only [runChapters, processChapter_skip env i c hc,
      ih (fun x hx => h x (by simp [hx])) (i + 1) (done ++ [c])]
    simp
    ring

/-! ## C1 — step accounting -/

/-- C1: for every Project with `N` sections Phase C computes
`stepsTotal = 1 + 2N`, and — since no fatal error can escape the
per-step handlers — every run ends with `stepsCompleted = stepsTotal`,
regardless of skips and non-fatal cover/text/image failures
(App.tsx:136, 158, 168, 207, 219). -/
theorem steps_total_and_completed (env : GenEnv) (book : BookData) :
    (startFullGeneration env book).totalSteps = 1 + 2 * book.outline.length ∧
    (startFullGeneration env book).completedSteps = (startFullGeneration env book).totalSteps := by
  constructor
  · simp [startFullGeneration]; ring
  · simp [startFullGeneration, runChapters_steps]; ring

/-! ## C2 — resume idempotence -/

/-- A fully finished chapter, for concrete counterexample/witness runs. -/
def doneChapter : Chapter :=
  { id := "chap-0", title := "T1", description := "D1"
    content := some "Body", imageUrl := some "img-0"
    status := ChapterStatus.completed }

def resumeConfig : BookConfig :=
  { topic := "Topic", title := "Title", authorName := "A"
    audience := "General Reader", tone := "Informative & Engaging"
    enableSearch := true, style := "Modern Minimalist"
    chapterCount := 3, format := BookFormat.ebook }

/-- A Project whose single section is fully done but whose cover is absent. -/
def resumeBookNoCover : BookData :=
  { config := resumeConfig, coverImage := none, outline := [doneChapter] }

/-- The same Project with its cover present. -/
def resumeBookWithCover : BookData :=
  { config := resumeConfig, coverImage := some "cover-img", outline := [doneChapter] }

def resumeEnv : GenEnv :=
  { coverResult := Except.ok "cover-img"
    textChunks := fun _ => []
    textFails := fun _ => false
    imageResult := fun _ => Except.ok "img" }

/-- C2 counterexample: on a Project where every section is `done` with
content and illustration but whose cover image is absent, Phase C is
**not** provider-call-free: the cover step (App.tsx:149-157) performs a
provider call and mutates the Project's cover reference, so the claim
"zero provider calls and Project unchanged" fails at this input. -/
theorem resume_claim_counterexample :
    resumeBookNoCover.outline = [doneChapter] ∧
    doneChapter.status = ChapterStatus.completed ∧
    truthy doneChapter.content = true ∧
    truthy doneChapter.imageUrl = true ∧
    (startFullGeneration resumeEnv resumeBookNoCover).calls = 1 ∧
    (startFullGeneration resumeEnv resumeBookNoCover).coverImage ≠ resumeBookNoCover.coverImage := by
  refine ⟨rfl, rfl, by decide, by decide, by decide, by decide⟩

/-- C2 (amended): when additionally the Project's cover reference is set
(non-empty), invoking Phase C on a Project in which every section has
status `done`, non-empty content and a non-empty illustration reference
performs zero provider calls, publishes nothing, and leaves the outline
and the cover exactly as they were. -/
theorem resume_idempotent_with_cover (env : GenEnv) (book : BookData)
    (hcov : truthy book.coverImage = true)
    (hall : ∀ c ∈ book.outline,
        c.status = ChapterStatus.completed ∧ truthy c.content = true ∧ truthy c.imageUrl = true) :
    (startFullGeneration env book).calls = 0 ∧
    (startFullGeneration env book).outline = book.outline ∧
    (startFullGeneration env book).coverImage = book.coverImage ∧
    (startFullGeneration env book).snaps = [] := by
  have hskip : ∀ c ∈ book.outline, skipCond c = true :=
    fun c hm => (skipCond_iff c).mpr (hall c hm)
  rw [startFullGeneration, runChapters_all_skip env book.outline hskip 0 []]
  simp [hcov]

theorem resume_idempotent_with_cover_witness :
    (startFullGeneration resumeEnv resumeBookWithCover).calls = 0 ∧
    (startFullGeneration resumeEnv resumeBookWithCover).outline = resumeBookWithCover.outline ∧
    (startFullGeneration resumeEnv resumeBookWithCover).coverImage = resumeBookWithCover.coverImage ∧
    (startFullGeneration resumeEnv resumeBookWithCover).snaps = [] :=
  resume_idempotent_with_cover resumeEnv resumeBookWithCover (by decide) (by decide)

/-! ## C3 — missing credential is swallowed, not fatal -/

/-- The environment in which the credential is absent: every provider
call site raises the `getClient` missing-key message; in particular the
text stream throws before yielding any fragment. -/
def missingKeyEnv : GenEnv :=
  { coverResult := Except.error apiKeyMissingMsg
    textChunks := fun _ => []
    textFails := fun _ => true
    imageResult := fun _ => Except.error apiKeyMissingMsg }

/-- A fresh two-section Project straight out of outline synthesis. -/
def freshBook : BookData :=
  { config := resumeConfig
    coverImage := none
    outline := mkChapters 0 [("T1", "D1"), ("T2", "D2")] }

/-- C3 evaluated at the failing input: with the credential missing at
every provider call site, the run nevertheless ends `COMPLETED` with no
error message recorded — the missing-credential exception is caught by
each per-step handler (cover App.tsx:154, stream App.tsx:200, image
App.tsx:213), every section getting the placeholder text and no
illustration, and the outer `failed`-transition catch (App.tsx:223)
never fires.  This contradicts the claim that the condition escapes the
per-step handling and transitions the run to `failed`. -/
theorem missing_credential_run_completes :
    (startFullGeneration missingKeyEnv freshBook).status = GenerationStatus.COMPLETED ∧
    (startFullGeneration missingKeyEnv freshBook).errorMsg = none ∧
    (startFullGeneration missingKeyEnv freshBook).coverImage = none ∧
    (startFullGeneration missingKeyEnv freshBook).outline.map Chapter.content =
      [some errPlaceholder, some errPlaceholder] ∧
    (startFullGeneration missingKeyEnv freshBook).outline.map Chapter.imageUrl = [none, none] ∧
    (startFullGeneration missingKeyEnv freshBook).completedSteps =
      (startFullGeneration missingKeyEnv freshBook).totalSteps := by
  refine ⟨rfl, rfl, by decide, by decide, by decide, by decide⟩

/-! ## C4 — streaming monotonicity -/

lemma accumulate_length (l : List String) :
    ∀ acc, (accumulate acc l).length = l.length := by
  induction l with
  | nil => intro acc; rfl
  | cons f fs ih => intro acc; simp [accumulate, ih]

/-- Every accumulator chain is a chain of prefix-extensions, starting
from its seed. -/
lemma chain'_accumulate (l : List String) :
    ∀ acc, List.Chain' (fun a b : String => ∃ t, a ++ t = b) (acc :: accumulate acc l) := by
  induction l with
  | nil => intro acc; simp [accumulate]
  | cons f fs ih =>
    intro acc
    rw [accumulate]
    exact List.Chain'.cons ⟨f, rfl⟩ (ih (acc ++ f))

/-- The contents published for chapter `i` during the writing sub-step:
the publishes after the initial `generating_text` one, one per received
fragment (App.tsx:195-199). -/
def writingSnapshots (env : GenEnv) (i : Nat) (c : Chapter) : List String :=
  (((processChapter env i c).pubs.drop 1).take (yieldsOf env i).length).map
    (fun ch => ch.content.getD "")

lemma map_take_drop_aux {α β : Type} (g : β → α) (f : α → β) (l : List α) (n : Nat)
    (h : n = l.length) (a : β) (l₂ : List β) (hgf : ∀ x, g (f x) = x) :
    List.map g (List.take n (List.drop 1 (a :: (List.map f l ++ l₂)))) = l := by
  subst h
  rw [List.drop_one, List.tail_cons,
    show l.length = (List.map f l).length from (List.length_map _ _).symm,
    List.take_left, List.map_map]
  rw [show g ∘ f = id from funext hgf, List.map_id]

lemma writingSnapshots_eq (env : GenEnv) (i : Nat) (c : Chapter) :
    writingSnapshots env i c =
      if skipCond c then [] else accumulate "" (yieldsOf env i) := by
  rw [writingSnapshots, processChapter]
  split
  · simp
  · exact map_take_drop_aux _ _ _ _ (accumulate_length (yieldsOf env i) "").symm _ _
      (fun x => rfl)

/-- C4: streaming monotonicity — during a section's writing sub-step
each successively published content snapshot extends the previous one
by a (possibly empty) suffix: content never shrinks or reorders. -/
theorem streaming_monotone (env : GenEnv) (i : Nat) (c : Chapter) :
    List.Chain' (fun a b : String => ∃ t, a ++ t = b) (writingSnapshots env i c) := by
  rw [writingSnapshots_eq]
  split
  · simp
  · exact (chain'_accumulate (yieldsOf env i) "").tail

/-! ## C5 — stream-failure fallback -/

lemma join_cons (f : String) (l : List String) :
    String.join (f :: l) = f ++ String.join l := by
  apply String.ext
  simp [String.data_join]

lemma mem_yieldsOf_ne_empty {env : GenEnv} {i : Nat} {s : String}
    (h : s ∈ yieldsOf env i) : s ≠ "" := by
  rw [yieldsOf] at h
  simpa using List.of_mem_filter h

lemma join_ne_empty {l : List String} (hne : l ≠ []) (h : ∀ s ∈ l, s ≠ "") :
    String.join l ≠ "" := by
  cases l with
  | nil => exact absurd rfl hne
  | cons f fs =>
    rw [join_cons]
    intro hc
    apply h f (by simp)
    have hd := congrArg String.data hc
    simp [String.data_append] at hd
    exact String.ext (by simpa using hd.1)

lemma processChapter_final_content (env : GenEnv) (i : Nat) (c : Chapter)
    (h : skipCond c = false) :
    (processChapter env i c).final.content = some (streamedText env i) := by
  rw [processChapter, if_neg (by simp [h])]
  cases him : env.imageResult i <;> simp [him]

lemma processChapter_final_status (env : GenEnv) (i : Nat) (c : Chapter) :
    (processChapter env i c).final.status = ChapterStatus.completed := by
  rw [processChapter]
  split
  · next hskip => exact ((skipCond_iff c).mp hskip).1
  · cases him : env.imageResult i <;> simp [him]

lemma processChapter_final_imageUrl_of_error (env : GenEnv) (i : Nat) (c : Chapter)
    {e : String} (h : env.imageResult i = Except.error e) :
    (processChapter env i c).final.imageUrl = c.imageUrl := by
  rw [processChapter]
  split
  · rfl
  · simp [h]

lemma processChapter_final_imageUrl_of_ok (env : GenEnv) (i : Nat) (c : Chapter)
    {u : String} (hns : skipCond c = false) (h : env.imageResult i = Except.ok u) :
    (processChapter env i c).final.imageUrl = some u := by
  rw [processChapter, if_neg (by simp [hns])]
  simp [h]

lemma processChapter_pubs_illustrating (env : GenEnv) (i : Nat) (c : Chapter)
    (hns : skipCond c = false) :
    ∃ p ∈ (processChapter env i c).pubs, p.status = ChapterStatus.generating_image := by
  rw [processChapter, if_neg (by simp [hns])]
  exact ⟨{ c with status := ChapterStatus.generating_image, content := some (streamedText env i) },
    by simp, rfl⟩

/-- C5: when a section's text stream fails after zero or more fragments
the run is not aborted; the section keeps the concatenation of the
fragments received before the failure (when at least one arrived —
fragments are non-empty by the stream's truthiness filter), receives
the fixed placeholder when none arrived, and still proceeds through the
illustrating sub-step to status `done`. -/
theorem stream_failure_fallback (env : GenEnv) (i : Nat) (c : Chapter)
    (hfail : env.textFails i = true) (hns : skipCond c = false) :
    (yieldsOf env i ≠ [] →
      (processChapter env i c).final.content = some (String.join (yieldsOf env i))) ∧
    (yieldsOf env i = [] →
      (processChapter env i c).final.content = some errPlaceholder) ∧
    (processChapter env i c).final.status = ChapterStatus.completed ∧
    (∃ p ∈ (processChapter env i c).pubs, p.status = ChapterStatus.generating_image) ∧
    ∀ book : BookData, (startFullGeneration env book).status = GenerationStatus.COMPLETED := by
  refine ⟨?_, ?_, processChapter_final_status env i c,
    processChapter_pubs_illustrating env i c hns, fun _ => rfl⟩
  · intro hne
    rw [processChapter_final_content env i c hns, streamedText]
    have hj : String.join (yieldsOf env i) ≠ "" :=
      join_ne_empty hne (fun s hs => mem_yieldsOf_ne_empty hs)
    simp [hfail, jsOrS, hj]
  · intro hnil
    rw [processChapter_final_content env i c hns, streamedText]
    simp [hfail, jsOrS, hnil, String.join]

/-- The scenario section: text stream yields "Intro. " then fails. -/
def failEnv : GenEnv :=
  { coverResult := Except.ok "cover-img"
    textChunks := fun _ => ["Intro. "]
    textFails := fun _ => true
    imageResult := fun _ => Except.ok "img" }

def pendingChapter2 : Chapter :=
  { id := "chap-1", title := "T2", description := "D2"
    content := none, imageUrl := none, status := ChapterStatus.pending }

theorem stream_failure_fallback_witness :
    (processChapter failEnv 1 pendingChapter2).final.content = some "Intro. " ∧
    (processChapter failEnv 1 pendingChapter2).final.status = ChapterStatus.completed := by
  have h := stream_failure_fallback failEnv 1 pendingChapter2 (by decide) (by decide)
  exact ⟨by rw [h.1 (by decide)]; rfl, h.2.2.1⟩

/-! ## C6 — image-failure isolation -/

lemma processChapter_calls_not_skip (env : GenEnv) (i : Nat) (c : Chapter)
    (hns : skipCond c = false) : (processChapter env i c).calls = 2 := by
  rw [processChapter, if_neg (by simp [hns])]

lemma processChapter_pubs_head (env : GenEnv) (i : Nat) (c : Chapter)
    (hns : skipCond c = false) :
    (processChapter env i c).pubs.head? =
      some { c with status := ChapterStatus.generating_text } := by
  rw [processChapter, if_neg (by simp [hns])]
  rfl

lemma finalsFrom_map_status (env : GenEnv) (l : List Chapter) :
    ∀ i, (finalsFrom env i l).map Chapter.status =
      List.replicate l.length ChapterStatus.completed := by
  induction l with
  | nil => intro i; rfl
  | cons c cs ih =>
    intro i
    simp [finalsFrom, processChapter_final_status, ih, List.replicate_succ]

lemma finalsFrom_getElem? (env : GenEnv) (l : List Chapter) :
    ∀ i k, (finalsFrom env i l).get? k =
      (l.get? k).map (fun c => (processChapter env (i + k) c).final) := by
  induction l with
  | nil => intro i k; simp [finalsFrom]
  | cons c cs ih =>
    intro i k
    cases k with
    | zero => simp [finalsFrom]
    | succ k =>
      have hik : i + (k + 1) = (i + 1) + k := by omega
      show ((processChapter env i c).final :: finalsFrom env (i + 1) cs).get? (k + 1) = _
      rw [List.get?_cons_succ, ih (i + 1) k, hik]
      rfl

lemma startFullGeneration_outline (env : GenEnv) (book : BookData) :
    (startFullGeneration env book).outline = finalsFrom env 0 book.outline := by
  simp [startFullGeneration, runChapters_outline]

lemma startFullGeneration_steps (env : GenEnv) (book : BookData) :
    (startFullGeneration env book).completedSteps = (startFullGeneration env book).totalSteps := by
  simp [startFullGeneration, runChapters_steps]
  ring

/-- A section left `completed` with an illustration reference but empty
content by a prior run (its stream yielded nothing, its image call
succeeded).  It does not satisfy the skip rule, so it is reprocessed. -/
def staleRefChapter : Chapter :=
  { id := "chap-0", title := "T1", description := "D1"
    content := some "", imageUrl := some "stale-img", status := ChapterStatus.completed }

def staleRefBook : BookData :=
  { config := resumeConfig, coverImage := some "cover-img", outline := [staleRefChapter] }

/-- An environment whose text streams succeed but whose image calls fail. -/
def imageFailEnv : GenEnv :=
  { coverResult := Except.ok "cover-img"
    textChunks := fun _ => ["New text"]
    textFails := fun _ => false
    imageResult := fun _ => Except.error "image failed" }

/-- C6 counterexample: a reprocessed section whose image sub-step fails
does **not** necessarily end without an illustrationRef — the failure
branch (App.tsx:215) spreads the existing chapter, so a stale reference
from a prior run survives: here the section ends `done` with
`imageUrl = some "stale-img"` although its image call failed. -/
theorem image_failure_keeps_stale_ref :
    (startFullGeneration imageFailEnv staleRefBook).outline.map Chapter.status =
      [ChapterStatus.completed] ∧
    (startFullGeneration imageFailEnv staleRefBook).outline.map Chapter.imageUrl =
      [some "stale-img"] :=
  ⟨by decide, by decide⟩

/-- C6 (amended): a provider failure on section `k`'s image sub-step is
non-fatal: every section of the run (in particular `k+1..N`) is still
processed to status `done`, section `k`'s illustration reference is left
**unchanged** — hence absent whenever it was absent before, as in every
state the orchestrator itself produces — while on image **success** for
any processed section `j` the returned illustration reference is set
(App.tsx:212), and the step counter still reaches `stepsTotal` (the
image sub-step contributes its increment in both outcomes). -/
theorem image_failure_isolated (env : GenEnv) (book : BookData) (k : Nat) (e : String)
    (him : (book.outline.get? k).map Chapter.imageUrl = some none)
    (hfail : env.imageResult k = Except.error e) :
    (startFullGeneration env book).outline.length = book.outline.length ∧
    (startFullGeneration env book).outline.map Chapter.status =
      List.replicate book.outline.length ChapterStatus.completed ∧
    ((startFullGeneration env book).outline.get? k).map Chapter.imageUrl = some none ∧
    (∀ (j : Nat) (cj : Chapter) (u : String),
      book.outline.get? j = some cj → skipCond cj = false →
      env.imageResult j = Except.ok u →
      ((startFullGeneration env book).outline.get? j).map Chapter.imageUrl = some (some u)) ∧
    (startFullGeneration env book).completedSteps = (startFullGeneration env book).totalSteps := by
  refine ⟨?_, ?_, ?_, ?_, startFullGeneration_steps env book⟩
  · rw [startFullGeneration_outline, finalsFrom_length]
  · rw [startFullGeneration_outline, finalsFrom_map_status]
  · rw [startFullGeneration_outline, finalsFrom_getElem?]
    cases hbk : book.outline.get? k with
    | none =>
      rw [hbk] at him
      exact Option.noConfusion him
    | some ck =>
      rw [hbk] at him
      have hck : ck.imageUrl = none := by simpa using him
      simp [Nat.zero_add, processChapter_final_imageUrl_of_error env k ck hfail, hck]
  · intro j cj u hbj hns hok
    rw [startFullGeneration_outline, finalsFrom_getElem?, hbj]
    simp [Nat.zero_add, processChapter_final_imageUrl_of_ok env j cj hns hok]

/-- An environment whose image call fails for the first section and
succeeds for every later one. -/
def mixedImageEnv : GenEnv :=
  { coverResult := Except.ok "cover-img"
    textChunks := fun _ => ["New text"]
    textFails := fun _ => false
    imageResult := fun i => if i = 0 then Except.error "image failed" else Except.ok "img-1" }

theorem image_failure_isolated_witness :
    (startFullGeneration mixedImageEnv freshBook).outline.map Chapter.status =
      List.replicate freshBook.outline.length ChapterStatus.completed ∧
    ((startFullGeneration mixedImageEnv freshBook).outline.get? 0).map Chapter.imageUrl =
      some none ∧
    ((startFullGeneration mixedImageEnv freshBook).outline.get? 1).map Chapter.imageUrl =
      some (some "img-1") :=
  have h := image_failure_isolated mixedImageEnv freshBook 0 "image failed"
    (by decide) rfl
  ⟨h.2.1, h.2.2.1, h.2.2.2.1 1 _ "img-1" rfl (by decide) rfl⟩

/-! ## C10 — the skip rule ignores a missing illustration -/

/-- C10: on resume, a section with status `done` and non-empty content
but **no** illustration reference does not satisfy the skip rule
(App.tsx:167 requires all three of status, content and image): its text
is regenerated from scratch — the streaming accumulator restarts at the
empty string and the final content is determined solely by the new
stream, overwriting whatever content the section had — and only then is
the illustration retried (both provider calls are made; on image success
the reference is set). -/
theorem resume_regenerates_unillustrated (env : GenEnv) (i : Nat) (c : Chapter)
    (hst : c.status = ChapterStatus.completed)
    (hct : truthy c.content = true)
    (him : c.imageUrl = none) :
    (processChapter env i c).calls = 2 ∧
    ((processChapter env i c).pubs.head?).map Chapter.status =
      some ChapterStatus.generating_text ∧
    writingSnapshots env i c = accumulate "" (yieldsOf env i) ∧
    (processChapter env i c).final.content = some (streamedText env i) ∧
    (∀ u, env.imageResult i = Except.ok u →
      (processChapter env i c).final.imageUrl = some u) ∧
    (processChapter env i c).final.status = ChapterStatus.completed := by
  have hns : skipCond c = false := by
    simp [skipCond, him, truthy]
  refine ⟨processChapter_calls_not_skip env i c hns, ?_, ?_,
    processChapter_final_content env i c hns,
    fun u hu => processChapter_final_imageUrl_of_ok env i c hns hu,
    processChapter_final_status env i c⟩
  · rw [processChapter_pubs_head env i c hns]
    rfl
  · rw [writingSnapshots_eq, if_neg (by simp [hns])]

/-- A section finished except for its illustration (image failed in a
prior run). -/
def doneNoImgChapter : Chapter :=
  { id := "chap-0", title := "T1", description := "D1"
    content := some "Old text", imageUrl := none, status := ChapterStatus.completed }

def regenEnv : GenEnv :=
  { coverResult := Except.ok "cover-img"
    textChunks := fun _ => ["New text"]
    textFails := fun _ => false
    imageResult := fun _ => Except.ok "new-img" }

theorem resume_regenerates_unillustrated_witness :
    (processChapter regenEnv 0 doneNoImgChapter).calls = 2 ∧
    (processChapter regenEnv 0 doneNoImgChapter).final.content = some "New text" ∧
    (processChapter regenEnv 0 doneNoImgChapter).final.imageUrl = some "new-img" := by
  have h := resume_regenerates_unillustrated regenEnv 0 doneNoImgChapter
    (by decide) (by decide) (by decide)
  refine ⟨h.1, ?_, h.2.2.2.2.1 "new-img" rfl⟩
  rw [h.2.2.2.1]
  decide

/-! ## C9 — the `error` status is unreachable -/

/-- No chapter of the list carries the declared-but-unused `error`
status. -/
@[reducible] def noErr (l : List Chapter) : Prop :=
  ∀ ch ∈ l, ch.status ≠ ChapterStatus.error

lemma noErr_append {l₁ l₂ : List Chapter} (h₁ : noErr l₁) (h₂ : noErr l₂) :
    noErr (l₁ ++ l₂) := by
  intro ch hm
  rcases List.mem_append.mp hm with h | h
  exacts [h₁ ch h, h₂ ch h]

/-- Every state a chapter is ever published in during Phase C carries
one of the statuses `generating_text`, `generating_image`, `completed` —
never `error`. -/
lemma processChapter_pubs_status (env : GenEnv) (i : Nat) (c : Chapter) :
    ∀ p ∈ (processChapter env i c).pubs, p.status ≠ ChapterStatus.error := by
  rw [processChapter]
  by_cases hs : skipCond c = true
  · rw [if_pos hs]
    intro p hp
    simp at hp
  · rw [if_neg hs]
    dsimp only
    refine List.forall_mem_cons.mpr ⟨by simp, ?_⟩
    refine List.forall_mem_append.mpr ⟨?_, ?_⟩
    · intro p hp
      obtain ⟨a, _, ha⟩ := List.mem_map.mp hp
      rw [← ha]
      simp
    · refine List.forall_mem_cons.mpr ⟨by simp, ?_⟩
      refine List.forall_mem_cons.mpr ⟨?_, by intro p hp; simp at hp⟩
      cases env.imageResult i <;> simp

lemma mkChapters_noErr (ps : List (String × String)) :
    ∀ i, noErr (mkChapters i ps) := by
  induction ps with
  | nil => intro i ch hm; simp [mkChapters] at hm
  | cons p ps ih =>
    intro i ch hm
    simp only [mkChapters, List.mem_cons] at hm
    rcases hm with h | h
    · subst h; simp
    · exact ih (i + 1) ch h

lemma handleUpdateChapter_noErr :
    ∀ (outline : List Chapter) (idx : Nat) (f : ChapterField) (v : String),
      noErr outline → noErr (handleUpdateChapter outline idx f v) := by
  intro outline
  induction outline with
  | nil => intro idx f v h; simpa [handleUpdateChapter] using h
  | cons c cs ih =>
    intro idx f v h
    have hc : c.status ≠ ChapterStatus.error := h c (by simp)
    have hcs : noErr cs := fun ch hm => h ch (by simp [hm])
    cases idx with
    | zero =>
      intro ch hm
      simp only [handleUpdateChapter, List.mem_cons] at hm
      rcases hm with hh | hh
      · subst hh; cases f <;> exact hc
      · exact hcs ch hh
    | succ n =>
      intro ch hm
      simp only [handleUpdateChapter, List.mem_cons] at hm
      rcases hm with hh | hh
      · subst hh; exact hc
      · exact ih n f v hcs ch hh

lemma startFullGeneration_snaps (env : GenEnv) (book : BookData) :
    (startFullGeneration env book).snaps = (runChapters env 0 [] book.outline).snaps := by
  simp [startFullGeneration]

lemma runChapters_noErr (env : GenEnv) :
    ∀ (rest : List Chapter) (i : Nat) (done : List Chapter),
      noErr done → noErr rest →
      noErr (runChapters env i done rest).outline ∧
      ∀ s ∈ (runChapters env i done rest).snaps, noErr s := by
  intro rest
  induction rest with
  | nil =>
    intro i done hd _
    exact ⟨by simpa [runChapters] using hd, by simp [runChapters]⟩
  | cons c cs ih =>
    intro i done hd hr
    have hfin : noErr (done ++ [(processChapter env i c).final]) := by
      apply noErr_append hd
      intro ch hm
      simp only [List.mem_singleton] at hm
      subst hm
      rw [processChapter_final_status]
      decide
    have hcs : noErr cs := fun ch hm => hr ch (by simp [hm])
    have htail := ih (i + 1) (done ++ [(processChapter env i c).final]) hfin hcs
    constructor
    · simpa [runChapters] using htail.1
    · intro s hsm
      simp only [runChapters, List.mem_append, List.mem_map] at hsm
      rcases hsm with ⟨p, hpm, hps⟩ | hsm
      · subst hps
        apply noErr_append hd
        intro ch hm
        rcases List.mem_cons.mp hm with h | h
        · rw [h]; exact processChapter_pubs_status env i c p hpm
        · exact hcs ch h
      · exact htail.2 s hsm

/-- C9: the `error` variant of the per-section status enum is
unreachable: outline construction produces only `pending` sections,
every review edit preserves the absence of `error`, and every state
Phase C publishes or returns — including all its failure paths —
carries only `pending`/`generating_text`/`generating_image`/`completed`
statuses; failed sections are collapsed into `completed`. -/
theorem error_status_unreachable :
    (∀ (i : Nat) (ps : List (String × String)), noErr (mkChapters i ps)) ∧
    (∀ (outline : List Chapter) (idx : Nat) (f : ChapterField) (v : String),
      noErr outline → noErr (handleUpdateChapter outline idx f v)) ∧
    (∀ (outline : List Chapter) (now : Nat),
      noErr outline → noErr (handleAddChapter outline now)) ∧
    (∀ (outline : List Chapter) (idx : Nat),
      noErr outline → noErr (handleRemoveChapter outline idx)) ∧
    (∀ (outline : List Chapter) (cid s : String),
      noErr outline → noErr (handleUpdateBookContent outline cid s)) ∧
    (∀ (outline : List Chapter) (cid u : String),
      noErr outline → noErr (handleUpdateBookImage outline cid u)) ∧
    (∀ (env : GenEnv) (book : BookData), noErr book.outline →
      noErr (startFullGeneration env book).outline ∧
      ∀ s ∈ (startFullGeneration env book).snaps, noErr s) := by
  refine ⟨fun i ps => mkChapters_noErr ps i, handleUpdateChapter_noErr, ?_, ?_, ?_, ?_, ?_⟩
  · intro outline now h
    apply noErr_append h
    intro ch hm
    simp only [List.mem_singleton] at hm
    subst hm
    simp
  · intro outline idx h ch hm
    exact h ch ((List.eraseIdx_sublist outline idx).mem hm)
  · intro outline cid s h ch hm
    obtain ⟨c, hc, hch⟩ := List.mem_map.mp hm
    subst hch
    by_cases hid : c.id = cid <;> simp [hid] <;> exact h c hc
  · intro outline cid u h ch hm
    obtain ⟨c, hc, hch⟩ := List.mem_map.mp hm
    subst hch
    by_cases hid : c.id = cid <;> simp [hid] <;> exact h c hc
  · intro env book h
    have hrun := runChapters_noErr env book.outline 0 [] (by intro ch hm; simp at hm) h
    constructor
    · rw [startFullGeneration_outline]
      have := hrun.1
      rwa [runChapters_outline, List.nil_append] at this
    · intro s hsm
      rw [startFullGeneration_snaps] at hsm
      exact hrun.2 s hsm

theorem error_status_unreachable_witness :
    noErr (startFullGeneration missingKeyEnv freshBook).outline :=
  (error_status_unreachable.2.2.2.2.2.2 missingKeyEnv freshBook (by decide)).1

/-! ## C7 — Phase A failure behaviour -/

/-- A provider response whose parsed `chapters` field is an **empty**
array. -/
def emptyOutlineCall : Except String OutlineResponse :=
  Except.ok (OutlineResponse.parsed (some "T") (some []))

/-- An app state holding a Project from a prior outline run. -/
def priorState : AppState :=
  { status := GenerationStatus.REVIEWING_OUTLINE
    bookData := some freshBook
    error := none }

/-- C7 counterexample: an **empty** section list is *not* rejected —
an empty array passes both the `Array.isArray` check
(geminiService.ts:70) and the truthiness check on `outlineData.chapters`
(App.tsx:62, arrays are always truthy) — so outline synthesis succeeds,
a new zero-section Project replaces the prior one and the state moves to
reviewing instead of returning to idle. -/
theorem empty_outline_accepted :
    (startOutlineGeneration resumeConfig emptyOutlineCall priorState).status =
      GenerationStatus.REVIEWING_OUTLINE ∧
    (startOutlineGeneration resumeConfig emptyOutlineCall priorState).bookData =
      some { config := { resumeConfig with title := "T" }, coverImage := none, outline := [] } ∧
    (startOutlineGeneration resumeConfig emptyOutlineCall priorState).bookData ≠
      priorState.bookData :=
  ⟨rfl, by decide, by decide⟩

/-- C7 (amended): outline synthesis fails — transitioning back to
`IDLE` with the message surfaced and the prior Project left untouched —
when the provider call fails, when the response has no text, when it is
not parseable, or when the `chapters` field is absent or not an array;
an **empty** section list, however, is accepted and yields a Project
with zero sections in the reviewing state. -/
theorem outline_failure_behaviour (config : BookConfig) (st : AppState)
    (ht : ¬ config.topic = "") :
    (∀ e, startOutlineGeneration config (Except.error e) st =
      { status := GenerationStatus.IDLE, bookData := st.bookData
        error := some (jsOrS e "Failed to generate outline.") }) ∧
    (startOutlineGeneration config (Except.ok OutlineResponse.noText) st =
      { status := GenerationStatus.IDLE, bookData := st.bookData
        error := some "No response from AI" }) ∧
    (startOutlineGeneration config (Except.ok OutlineResponse.unparseable) st =
      { status := GenerationStatus.IDLE, bookData := st.bookData
        error := some "Failed to parse outline." }) ∧
    (∀ t, startOutlineGeneration config (Except.ok (OutlineResponse.parsed t none)) st =
      { status := GenerationStatus.IDLE, bookData := st.bookData
        error := some "Failed to parse outline." }) ∧
    (∀ t, startOutlineGeneration config (Except.ok (OutlineResponse.parsed t (some []))) st =
      { status := GenerationStatus.REVIEWING_OUTLINE
        bookData := some { config := { config with title := jsOrO t (jsOrS config.title config.topic) }
                           coverImage := none
                           outline := [] }
        error := none }) := by
  refine ⟨fun e => ?_, ?_, ?_, fun t => ?_, fun t => ?_⟩ <;>
    rw [startOutlineGeneration, if_neg ht] <;> rfl

theorem outline_failure_behaviour_witness :
    startOutlineGeneration resumeConfig (Except.ok OutlineResponse.unparseable) priorState =
      { status := GenerationStatus.IDLE, bookData := priorState.bookData
        error := some "Failed to parse outline." } :=
  (outline_failure_behaviour resumeConfig priorState (by decide)).2.2.1

/-! ## C8 — export pagination -/

lemma contentHeight_pos : (0:ℚ) < contentHeight := by
  norm_num [contentHeight, pdfHeight, pdfMarginMM]

/-- Closed form of the split loop: for a positive remaining height it
emits one page per `contentHeight` slice, `⌈heightLeft/contentHeight⌉`
pages in total, the image translated upward by `contentHeight` more on
each page. -/
lemma splitPages_eq :
    ∀ (n : Nat) (h p : ℚ), 0 < h → (⌈h / contentHeight⌉).toNat = n →
      splitPages h p =
        (List.range n).map (fun k : Nat => pdfMarginMM + p - (k : ℚ) * contentHeight) := by
  intro n
  induction n with
  | zero =>
    intro h p hpos hn
    exfalso
    have := Int.ceil_pos.mpr (div_pos hpos contentHeight_pos)
    omega
  | succ n ih =>
    intro h p hpos hn
    rw [splitPages, if_neg (not_le.mpr hpos)]
    by_cases hle : h - contentHeight ≤ 0
    · rw [splitPages, if_pos hle]
      have h2 : 0 < ⌈h / contentHeight⌉ := Int.ceil_pos.mpr (div_pos hpos contentHeight_pos)
      have h3 : ⌈h / contentHeight⌉ ≤ 1 := by
        apply Int.ceil_le.mpr
        push_cast
        rw [div_le_one contentHeight_pos]
        linarith
      have hn0 : n = 0 := by omega
      subst hn0
      simp [List.range_succ]
    · have hpos' : 0 < h - contentHeight := lt_of_not_ge hle
      have hsub : (h - contentHeight) / contentHeight = h / contentHeight - 1 := by
        rw [sub_div, div_self (ne_of_gt contentHeight_pos)]
      have hceil : ⌈(h - contentHeight) / contentHeight⌉ = ⌈h / contentHeight⌉ - 1 := by
        rw [hsub, Int.ceil_sub_one]
      have h2 : 0 < ⌈h / contentHeight⌉ := Int.ceil_pos.mpr (div_pos hpos contentHeight_pos)
      have hn' : (⌈(h - contentHeight) / contentHeight⌉).toNat = n := by omega
      rw [ih (h - contentHeight) (p - contentHeight) hpos' hn']
      rw [List.range_succ_eq_map, List.map_cons, List.map_map]
      congr 1
      · norm_num
      · refine List.map_congr_left (fun k _ => ?_)
        simp only [Function.comp]
        push_cast
        ring

/-- C8 counterexample: for a scaled height of `280` mm the content
height is `277` but the single-page test compares against the full page
height `297` (part_001:204), so exactly **one** page is emitted although
the claim demands `⌈280/277⌉ = 2` pages whenever the height exceeds the
content height. -/
theorem pagination_single_page_beyond_content :
    ¬ ((280:ℚ) ≤ contentHeight) ∧
    (sectionPages 280).length = 1 ∧
    (⌈(280:ℚ) / contentHeight⌉).toNat = 2 := by
  refine ⟨by norm_num [contentHeight, pdfHeight, pdfMarginMM], ?_, ?_⟩
  · rw [sectionPages, if_pos (by norm_num [pdfHeight])]
    rfl
  · rw [show (280:ℚ) / contentHeight = 280 / 277 by
      norm_num [contentHeight, pdfHeight, pdfMarginMM]]
    rw [show ⌈(280:ℚ) / 277⌉ = 2 by rw [Int.ceil_eq_iff] <;> norm_num]
    rfl

/-- C8 (amended): pagination emits exactly one page (image at the top
margin) when the scaled height is at most the **full page height**
(297 mm), and `⌈H/C⌉` pages when it exceeds it, the `k`-th page drawing
the full image at offset `margin - k·C`; in the multi-page case the
per-page visible bands `[k·C, (k+1)·C)` clipped at `H` tile the image
exactly — `C·(n-1) < H ≤ C·n` for `n = ⌈H/C⌉` — with no gap, no
overlap, and no empty trailing page at exact multiples of `C`. -/
theorem pagination_coverage (h : ℚ) (hpos : 0 < h) :
    (h ≤ pdfHeight → sectionPages h = [pdfMarginMM]) ∧
    (pdfHeight < h →
      sectionPages h =
        (List.range (⌈h / contentHeight⌉).toNat).map
          (fun k : Nat => pdfMarginMM - (k : ℚ) * contentHeight) ∧
      (sectionPages h).length = (⌈h / contentHeight⌉).toNat ∧
      contentHeight * ((⌈h / contentHeight⌉ : ℚ) - 1) < h ∧
      h ≤ contentHeight * (⌈h / contentHeight⌉ : ℚ)) := by
  constructor
  · intro hle
    rw [sectionPages, if_pos hle]
  · intro hgt
    have hns : ¬ h ≤ pdfHeight := not_le.mpr hgt
    have hsp := splitPages_eq (⌈h / contentHeight⌉).toNat h 0 hpos rfl
    have hpages : sectionPages h =
        (List.range (⌈h / contentHeight⌉).toNat).map
          (fun k : Nat => pdfMarginMM - (k : ℚ) * contentHeight) := by
      rw [sectionPages, if_neg hns, hsp]
      exact List.map_congr_left (fun k _ => by ring)
    refine ⟨hpages, ?_, ?_, ?_⟩
    · rw [hpages, List.length_map, List.length_range]
    · have h1 : (⌈h / contentHeight⌉ : ℚ) < h / contentHeight + 1 := Int.ceil_lt_add_one _
      calc contentHeight * ((⌈h / contentHeight⌉ : ℚ) - 1)
          < contentHeight * (h / contentHeight) := by
            apply mul_lt_mul_of_pos_left _ contentHeight_pos
            linarith
        _ = h := by rw [mul_comm, div_mul_cancel₀ _ (ne_of_gt contentHeight_pos)]
    · have h1 : h / contentHeight ≤ (⌈h / contentHeight⌉ : ℚ) := Int.le_ceil _
      calc h = contentHeight * (h / contentHeight) := by
            rw [mul_comm, div_mul_cancel₀ _ (ne_of_gt contentHeight_pos)]
        _ ≤ contentHeight * (⌈h / contentHeight⌉ : ℚ) :=
            mul_le_mul_of_nonneg_left h1 (le_of_lt contentHeight_pos)

theorem pagination_coverage_witness :
    (sectionPages 600).length = 3 ∧ (600:ℚ) ≤ contentHeight * 3 := by
  have h := (pagination_coverage 600 (by norm_num)).2 (by norm_num [pdfHeight])
  have hc : ⌈(600:ℚ) / contentHeight⌉ = 3 := by
    rw [show (600:ℚ) / contentHeight = 600 / 277 by
      norm_num [contentHeight, pdfHeight, pdfMarginMM]]
    rw [Int.ceil_eq_iff] <;> norm_num
  constructor
  · rw [h.2.1, hc]
    rfl
  · have h4 := h.2.2.2
    rw [hc] at h4
    simpa using h4

end EbookArchitect
